import Mathlib

/-!
Shallow embedding of `flight_deals_bot.py`.

This file embeds the data model and the operations of the flight-deals bot
(offer selection with time-window filtering, the poll/persist/notify cycle,
the price-history store and its top-N query, and the Telegram command
listener with its persisted update cursor) as executable Lean definitions,
and proves the behavioural properties stated for them.

Conventions of the embedding:
* Python `float` prices are modelled as exact rationals (`ℚ`); the program
  only parses decimal strings, divides and compares, so exact arithmetic is
  the intended reading.
* Fallible parsing (`float(...)`, `datetime.fromisoformat(...)`) is modelled
  by `Option`-returning parsers covering the decimal / ISO-timestamp string
  shapes the program feeds them.
* The process-wide configuration read from the environment at startup
  (time windows, passenger count, threshold, chat id, ...) is modelled as an
  explicit `Config` value passed to each function.
* Side effects of one poll cycle (SQLite insert, Telegram sends) are
  modelled as an event trace; message text formatting is abstracted into
  structured events carrying the formatted data.
-/

namespace FlightDealsBot

/-- The empty string (used for unset environment values such as
`TELEGRAM_CHAT_ID`, src line 21). -/
def emptyStr : String := ""

/-- Parse two decimal digit characters as a number in `0..99`;
`none` when either character is not a digit. -/
def two (a b : Char) : Option Nat :=
  if a.isDigit ∧ b.isDigit then some ((a.toNat - 48) * 10 + (b.toNat - 48)) else none

/-- Model of the time-of-day part accepted by `datetime.fromisoformat`:
`HH:MM` or `HH:MM:SS`; returns the hour. -/
def parse_time_hour (t : List Char) : Option Nat :=
  match t with
  | [h1, h2, c1, mi1, mi2] =>
    match two h1 h2, two mi1 mi2 with
    | some h, some mi => if c1 = ':' ∧ h ≤ 23 ∧ mi ≤ 59 then some h else none
    | _, _ => none
  | [h1, h2, c1, mi1, mi2, c2, se1, se2] =>
    match two h1 h2, two mi1 mi2, two se1 se2 with
    | some h, some mi, some se =>
      if c1 = ':' ∧ c2 = ':' ∧ h ≤ 23 ∧ mi ≤ 59 ∧ se ≤ 59 then some h else none
    | _, _, _ => none
  | _ => none

/-- Model of `datetime.fromisoformat(s).hour` for the timestamp shapes the
provider emits: `YYYY-MM-DD` (hour 0) or `YYYY-MM-DD` + separator (`T` or a
space) + `HH:MM[:SS]`. Returns `none` when the string does not parse. -/
def fromisoformat_hour (s : String) : Option Nat :=
  match s.data with
  | y1 :: y2 :: y3 :: y4 :: c1 :: m1 :: m2 :: c2 :: d1 :: d2 :: rest =>
    if y1.isDigit ∧ y2.isDigit ∧ y3.isDigit ∧ y4.isDigit ∧ c1 = '-' ∧ c2 = '-' then
      match two m1 m2, two d1 d2 with
      | some mo, some da =>
        if 1 ≤ mo ∧ mo ≤ 12 ∧ 1 ≤ da ∧ da ≤ 31 then
          match rest with
          | [] => some 0
          | sep :: t => if sep = 'T' ∨ sep = ' ' then parse_time_hour t else none
        else none
      | _, _ => none
    else none
  | _ => none

/-- `_parse_hour` (src lines 184-190): returns the hour (0-23) of an ISO
datetime string; `None`/empty input and parse failures yield `None`.
`iso_ts.replace("Z","")` removes every `Z` before parsing. -/
def _parse_hour (iso_ts : Option String) : Option Nat :=
  match iso_ts with
  | none => none
  | some s =>
    if s = emptyStr then none
    else fromisoformat_hour (String.mk (s.data.filter (fun c => c ≠ 'Z')))

/-- Numeric value of a list of decimal digit characters. -/
def natOfDigits (l : List Char) : Nat :=
  l.foldl (fun n c => n * 10 + (c.toNat - 48)) 0

/-- Model of Python `float(s)` for plain decimal strings
`[+-]?digits[.digits]?` (at least one digit); other strings fail to parse.
The result is the exact rational value. -/
def parseDecimal (s : String) : Option ℚ :=
  let cs := s.data
  let neg : Bool := match cs with
    | c :: _ => c = '-'
    | [] => false
  let cs2 : List Char := match cs with
    | c :: t => if c = '-' ∨ c = '+' then t else cs
    | [] => []
  let intPart := cs2.takeWhile Char.isDigit
  let rest := cs2.dropWhile Char.isDigit
  let val : Option ℚ :=
    match rest with
    | [] => if intPart = [] then none else some (mkRat (natOfDigits intPart) 1)
    | c :: fr =>
      if c = '.' ∧ fr.all Char.isDigit ∧ (intPart ≠ [] ∨ fr ≠ []) then
        some (mkRat (natOfDigits intPart * 10 ^ fr.length + natOfDigits fr) (10 ^ fr.length))
      else none
  val.map (fun v => if neg then -v else v)

/-- One flight segment of an itinerary; `departure_at`/`arrival_at` model the
`["departure"]["at"]` / `["arrival"]["at"]` fields (`none` = key missing, a
lookup that raises `KeyError` in the source). -/
structure Segment where
  departure_at : Option String
  arrival_at : Option String
deriving DecidableEq

/-- One itinerary (outbound or inbound leg) of a raw offer; `segments` models
the `"segments"` list (a missing key behaves like an empty list: both are
falsy in the guards of the source). -/
structure Itinerary where
  segments : List Segment
deriving DecidableEq

/-- A raw provider offer: its itineraries and its `price` object's
`grandTotal` and `total` fields (strings; `none` = key missing). -/
structure Offer where
  itineraries : List Itinerary
  price_grandTotal : Option String
  price_total : Option String
deriving DecidableEq

/-- The provider search response body: its `"data"` list of offers. -/
structure SearchData where
  data : List Offer
deriving DecidableEq

/-- The process configuration read from the environment at startup
(src lines 20-52): itinerary endpoints, passenger count, currency, the
per-person alert threshold and the four optional time-window bounds. -/
structure Config where
  origin : String
  destination : String
  adults : Nat
  currency : String
  alert_per_person : ℚ
  dep_window_from : Option Int
  dep_window_to : Option Int
  ret_window_from : Option Int
  ret_window_to : Option Int
deriving DecidableEq

/-- `extract_times_from_offer` (src lines 204-218): first segment departure
and arrival timestamps of the outbound and inbound itineraries, as
`(out_dep, out_arr, in_dep, in_arr)`. A missing `at` field raises inside the
shared `try`, so values assigned before the failure are kept and the later
ones stay `None`; the inbound block runs only when the outbound block did
not raise. -/
def extract_times_from_offer (o : Offer) :
    Option String × Option String × Option String × Option String :=
  let its := o.itineraries
  let afterOut : Option String × Option String × Bool :=
    match its.head? with
    | none => (none, none, false)
    | some it0 =>
      match it0.segments.head? with
      | none => (none, none, false)
      | some s0 =>
        match s0.departure_at with
        | none => (none, none, true)
        | some d =>
          match s0.arrival_at with
          | none => (some d, none, true)
          | some a => (some d, some a, false)
  match afterOut with
  | (od, oa, true) => (od, oa, none, none)
  | (od, oa, false) =>
    match its.get? 1 with
    | none => (od, oa, none, none)
    | some it1 =>
      match it1.segments.head? with
      | none => (od, oa, none, none)
      | some s1 =>
        match s1.departure_at with
        | none => (od, oa, none, none)
        | some d =>
          match s1.arrival_at with
          | none => (od, oa, some d, none)
          | some a => (od, oa, some d, some a)

/-- `extract_dates_from_offer` (src lines 192-202): the first 10 characters
(`[:10]`) of the outbound and inbound first-segment departure timestamps;
a raise in the first block skips the second. -/
def extract_dates_from_offer (o : Offer) : Option String × Option String :=
  let its := o.itineraries
  let firstBlock : Option String × Bool :=
    match its.head? with
    | none => (none, false)
    | some it0 =>
      match it0.segments.head? with
      | none => (none, false)
      | some s0 =>
        match s0.departure_at with
        | none => (none, true)
        | some d => (some (d.take 10), false)
  match firstBlock with
  | (dep, true) => (dep, none)
  | (dep, false) =>
    match its.get? 1 with
    | none => (dep, none)
    | some it1 =>
      match it1.segments.head? with
      | none => (dep, none)
      | some s1 =>
        match s1.departure_at with
        | none => (dep, none)
        | some d => (dep, some (d.take 10))

/-- One window check of `offer_matches_time_windows`: when both bounds are
configured and the hour parsed, the hour must lie in the inclusive range;
otherwise the check passes. -/
def window_check (lo hi : Option Int) (hr : Option Nat) : Bool :=
  match lo, hi, hr with
  | some l, some h, some x => decide (l ≤ (x : Int) ∧ (x : Int) ≤ h)
  | _, _, _ => true

/-- `offer_matches_time_windows` (src lines 220-238): the offer passes when
the outbound departure hour satisfies the `DEP_WINDOW` check and the inbound
departure hour satisfies the `RET_WINDOW` check (each check is skipped when
a bound is unconfigured or the hour did not parse). The source's two
early-return `if` blocks are factored through `window_check`. -/
def offer_matches_time_windows (cfg : Config) (offer : Offer) : Bool :=
  let t := extract_times_from_offer offer
  window_check cfg.dep_window_from cfg.dep_window_to (_parse_hour t.1) &&
    window_check cfg.ret_window_from cfg.ret_window_to (_parse_hour t.2.2.1)

/-- The price parsed from an offer:
`float(o.get("price",{}).get("grandTotal") or o.get("price",{}).get("total"))`.
A falsy `grandTotal` (missing or empty) falls back to `total`; a missing
value or a non-decimal string raises, modelled by `none`. -/
def offer_price (o : Offer) : Option ℚ :=
  let chosen : Option String :=
    match o.price_grandTotal with
    | some g => if g = emptyStr then o.price_total else some g
    | none => o.price_total
  match chosen with
  | none => none
  | some s => parseDecimal s

/-- The loop of `best_offer_from_search` (src lines 246-256): offers failing
the time-window filter or whose price does not parse are skipped; an offer
replaces the current best only when its price is strictly smaller. -/
def bestGo (cfg : Config) : Option (ℚ × Offer) → List Offer → Option (ℚ × Offer)
  | best, [] => best
  | best, o :: rest =>
    if offer_matches_time_windows cfg o = false then bestGo cfg best rest
    else
      match offer_price o with
      | none => bestGo cfg best rest
      | some price =>
        match best with
        | none => bestGo cfg (some (price, o)) rest
        | some b =>
          if price < b.1 then bestGo cfg (some (price, o)) rest else bestGo cfg (some b) rest

/-- `data.get("data", []) if data else []` (src line 244). -/
def offersOf (d : Option SearchData) : List Offer :=
  match d with
  | none => []
  | some j => j.data

/-- `best_offer_from_search` (src lines 243-257): the cheapest offer of the
response that passes the time windows and has a parseable price, together
with that price; `None` when no offer qualifies. -/
def best_offer_from_search (cfg : Config) (data : Option SearchData) : Option (ℚ × Offer) :=
  bestGo cfg none (offersOf data)

/-- The contribution of one offer to the selection: its parsed price paired
with the offer when it passes both time windows and its price parses. -/
def survivorPair (cfg : Config) (o : Offer) : Option (ℚ × Offer) :=
  if offer_matches_time_windows cfg o then (offer_price o).map (fun p => (p, o)) else none

/-- The qualifying offers of a batch, in input order, each paired with its
parsed price: the offers `best_offer_from_search` actually selects among. -/
def pricedSurvivors (cfg : Config) (l : List Offer) : List (ℚ × Offer) :=
  l.filterMap (survivorPair cfg)

/-- The selection loop restricted to the already-filtered price/offer pairs:
keep the accumulator unless the next pair's price is strictly smaller. -/
def goPairs : Option (ℚ × Offer) → List (ℚ × Offer) → Option (ℚ × Offer)
  | best, [] => best
  | none, y :: ys => goPairs (some y) ys
  | some b, y :: ys => goPairs (if y.1 < b.1 then some y else some b) ys

/-! ## Deep links (src lines 262-280) -/

/-- String pieces of the Google Flights deep link. -/
def gflightsHl : String := "https://www.google.com/flights?hl="
def gflightsFlt : String := "#flt="
def dotStr : String := "."
def starStr : String := "*"
def semiC : String := ";c:"
def semiSdAdults : String := ";sd:1;adults="
def localeEl : String := "el"
def skyBase : String := "https://www.skyscanner.net/transport/flights/"
def slashStr : String := "/"
def skyAdults : String := "/?adults="
def skyCurrency : String := "&currency="

/-- `google_flights_link` (src lines 262-269): `None` for a falsy departure
date; the return leg is appended only for a truthy return date. -/
def google_flights_link (origin dest : String) (dep_date ret_date : Option String)
    (currency : String) (adults : Nat) (locale : String) : Option String :=
  match dep_date with
  | none => none
  | some dd =>
    if dd = emptyStr then none
    else
      let base := gflightsHl ++ locale ++ gflightsFlt ++ origin ++ dotStr ++ dest ++ dotStr ++ dd
      let base :=
        match ret_date with
        | some rd =>
          if rd = emptyStr then base
          else base ++ starStr ++ dest ++ dotStr ++ origin ++ dotStr ++ rd
        | none => base
      some (base ++ semiC ++ currency ++ semiSdAdults ++ toString adults)

/-- `YYYY-MM-DD` compressed to `YYMMDD`: `.replace("-","")[2:]`. -/
def dateFmt6 (d : String) : String :=
  String.mk ((d.data.filter (fun c => c ≠ '-')).drop 2)

/-- `skyscanner_link` (src lines 271-280). -/
def skyscanner_link (origin dest : String) (dep_date ret_date : Option String)
    (currency : String) (adults : Nat) : Option String :=
  match dep_date with
  | none => none
  | some dd =>
    if dd = emptyStr then none
    else
      let o := origin.toLower
      let de := dest.toLower
      let common := skyBase ++ o ++ slashStr ++ de ++ slashStr ++ dateFmt6 dd
      match ret_date with
      | some rd =>
        if rd = emptyStr then
          some (common ++ skyAdults ++ toString adults ++ skyCurrency ++ currency)
        else
          some (common ++ slashStr ++ dateFmt6 rd ++ skyAdults ++ toString adults ++
            skyCurrency ++ currency)
      | none => some (common ++ skyAdults ++ toString adults ++ skyCurrency ++ currency)

/-! ## The poll cycle as an event trace (src lines 285-327) -/

/-- One observable side effect of a poll cycle: the SQLite insert performed
by `add_history`, the summary message, or the per-person alert message.
Message text formatting is abstracted: each notification event carries the
data the text is formatted from. -/
inductive Event where
  | persist (price : ℚ) (currency : String) (dep_date ret_date g_link s_link : Option String)
  | notify_offer (price : ℚ)
  | notify_alert (per_person : ℚ)
deriving DecidableEq

/-- `true` for the two Telegram message events, `false` for the insert. -/
def Event.is_notification : Event → Bool
  | Event.persist _ _ _ _ _ _ => false
  | Event.notify_offer _ => true
  | Event.notify_alert _ => true

/-- `poll_and_notify` (src lines 285-327) as the trace of its side effects.
`token` is the result of `get_amadeus_token()` (`None` aborts the cycle) and
`data` the response of `search_amadeus` (`None` yields no offers). After a
qualifying offer is found the cycle inserts the history row, sends the
summary message, and sends the alert message exactly when the per-person
price (total over `ADULTS`, or the total itself when `ADULTS` is 0) is at
most `ALERT_PER_PERSON`. -/
def poll_and_notify (cfg : Config) (token : Option String) (data : Option SearchData) :
    List Event :=
  match token with
  | none => []
  | some _ =>
    match best_offer_from_search cfg data with
    | none => []
    | some best =>
      let price := best.1
      let offer := best.2
      let dates := extract_dates_from_offer offer
      let g_link := google_flights_link cfg.origin cfg.destination dates.1 dates.2
        cfg.currency cfg.adults localeEl
      let s_link := skyscanner_link cfg.origin cfg.destination dates.1 dates.2
        cfg.currency cfg.adults
      let per_person := if cfg.adults = 0 then price else price / (cfg.adults : ℚ)
      [Event.persist price cfg.currency dates.1 dates.2 g_link s_link,
        Event.notify_offer price] ++
        (if per_person ≤ cfg.alert_per_person then [Event.notify_alert per_person] else [])

/-- The prices inserted into the history table by a trace of events. -/
def persistedPrices (tr : List Event) : List ℚ :=
  tr.filterMap (fun e =>
    match e with
    | Event.persist p _ _ _ _ _ => some p
    | _ => none)

/-! ## History store (src lines 67-106) -/

/-- One row of the `history` table (src lines 70-81); the surrogate id is
the list position. -/
structure HistoryRow where
  timestamp : String
  price : ℚ
  currency : String
  dep_date : Option String
  ret_date : Option String
  google_link : Option String
  skyscanner_link : Option String
deriving DecidableEq

/-- `add_history` (src lines 85-93): `INSERT` appends one row to the table,
which we keep as a list in insertion order. -/
def add_history (hist : List HistoryRow) (row : HistoryRow) : List HistoryRow :=
  hist ++ [row]

/-- The SQLite contract of `ORDER BY price ASC` over the history table: the
result is some permutation of the stored rows that is non-decreasing in
price. The query of src lines 98-103 has no secondary sort key and SQLite
leaves the relative order of rows with equal `ORDER BY` keys undefined, so
every such permutation is an admissible result. -/
def isOrderByPriceResult (hist out : List HistoryRow) : Prop :=
  hist.Perm out ∧ out.Pairwise (fun a b => a.price ≤ b.price)

/-- `top_n_history` (src lines 95-106),
`SELECT ... FROM history ORDER BY price ASC LIMIT n`, as a relation between
the stored rows and an admissible query result: the first `n` rows of some
admissible `ORDER BY price ASC` result. The function is modelled as a
relation because the engine's order on equal prices is unspecified. -/
def top_n_history (hist : List HistoryRow) (n : Nat) (res : List HistoryRow) : Prop :=
  ∃ out, isOrderByPriceResult hist out ∧ res = out.take n

/-! ## Telegram command listener (src lines 350-417) -/

/-- A Telegram message: its `text` and its `chat.id` (each `none` when the
key is absent). -/
structure TgMessage where
  text : Option String
  chat_id : Option Int
deriving DecidableEq

/-- A Telegram update: its identifier and its optional `message` /
`edited_message` payloads. -/
structure TgUpdate where
  update_id : Int
  message : Option TgMessage
  edited_message : Option TgMessage
deriving DecidableEq

/-- `update.get("message") or update.get("edited_message") or {}`
(src line 366): the first present payload, else the empty one. -/
def msg_of (u : TgUpdate) : TgMessage :=
  match u.message with
  | some m => m
  | none =>
    match u.edited_message with
    | some m => m
    | none => { text := none, chat_id := none }

/-- Python `str.strip()`: drop leading and trailing whitespace. -/
def pyStrip (s : String) : String :=
  String.mk (((s.data.dropWhile Char.isWhitespace).reverse.dropWhile Char.isWhitespace).reverse)

/-- Python `str(None)`. -/
def pyNoneStr : String := "None"

/-- `str(chat.get("id"))` (src line 369): the decimal rendering of the
chat id, or `"None"` when the key is absent. -/
def chat_id_str (m : TgMessage) : String :=
  match m.chat_id with
  | none => pyNoneStr
  | some i => toString i

/-- The recognized command texts (src lines 377-400). -/
def cmd_start : String := "/start"
def cmd_history : String := "/history"
def cmd_help : String := "/help"

/-- The reply behaviour of `handle_update`: `dropped` is the silent early
return of the chat-id guard; the other constructors stand for the four
command branches (`/start` runs an immediate poll cycle, `/history` sends
the top-10 list, `/help` and the fallback send static texts). -/
inductive Reply where
  | dropped
  | run_search
  | history_reply
  | help_reply
  | unknown_reply
deriving DecidableEq

/-- `handle_update` (src lines 364-400): extract the message text and chat
id; drop the update when a recipient chat id is configured (non-empty) and
differs from the sender's; otherwise dispatch on the text by prefix match. -/
def handle_update (chat_cfg : String) (u : TgUpdate) : Reply :=
  let m := msg_of u
  let text := pyStrip (m.text.getD emptyStr)
  let cid := chat_id_str m
  if chat_cfg ≠ emptyStr ∧ cid ≠ chat_cfg then Reply.dropped
  else if text.startsWith cmd_start then Reply.run_search
  else if text.startsWith cmd_history then Reply.history_reply
  else if text.startsWith cmd_help then Reply.help_reply
  else Reply.unknown_reply

/-- The batch loop of `tg_updates_loop` (src lines 410-413): for each update
in order, invoke `handle_update`, set the in-memory offset to the update's
identifier plus one, and persist it with `save_offset`. Returns the offset
persisted last (the initial offset when the batch is empty) and the
identifiers passed to the handler, in order. -/
def drain (offset : Option Int) : List TgUpdate → Option Int × List Int
  | [] => (offset, [])
  | u :: rest =>
    let r := drain (some (u.update_id + 1)) rest
    (r.1, u.update_id :: r.2)

/-- The getUpdates long poll (src line 406 with the URL builder of line 60):
a `None` — or `0`, which is falsy — offset sends no `offset` parameter and
the channel returns every pending update; otherwise it returns the pending
updates with identifier at least the offset. -/
def tgPoll (pending : List TgUpdate) (offset : Option Int) : List TgUpdate :=
  match offset with
  | none => pending
  | some off => if off = 0 then pending else pending.filter (fun u => decide (off ≤ u.update_id))

/-- A crash-and-restart run of the Command Listener against a fixed pending
batch: the first run drains the first `k` updates completely, invokes the
handler on update `k` (src line 411) and crashes before its `save_offset`
(line 413); the restarted process loads the persisted offset (`load_offset`,
line 403), long-polls the channel again and drains what is re-delivered.
Returns every update identifier passed to `handle_update` across both runs,
in order. -/
def processedAcrossCrash (offset0 : Option Int) (pending : List TgUpdate) (k : Nat) :
    List Int :=
  (drain offset0 (pending.take k)).2 ++
    ((pending.drop k).take 1).map (fun u => u.update_id) ++
    (drain (drain offset0 (pending.take k)).1
      (tgPoll pending (drain offset0 (pending.take k)).1)).2

/-! ## Concrete data used by the witnesses and counterexamples -/

/-- A token value standing for a successful `get_amadeus_token()` result. -/
def tokStr : String := "tok"

/-- An offer priced 180.00 with outbound departure at hour 9 and inbound
departure at hour 10 (the spec's selection scenario). -/
def o180 : Offer :=
  { itineraries :=
      [{ segments := [{ departure_at := some ("2026-04-28T09:30:00"),
                        arrival_at := some ("2026-04-28T12:00:00") }] },
       { segments := [{ departure_at := some ("2026-05-05T10:00:00"),
                        arrival_at := some ("2026-05-05T12:30:00") }] }],
    price_grandTotal := some ("180.00"),
    price_total := none }

/-- An offer priced 150.00 with outbound departure at hour 23 (outside the
scenario's outbound window 6..12). -/
def o150 : Offer :=
  { itineraries :=
      [{ segments := [{ departure_at := some ("2026-04-28T23:30:00"),
                        arrival_at := some ("2026-04-29T02:00:00") }] },
       { segments := [{ departure_at := some ("2026-05-05T10:00:00"),
                        arrival_at := some ("2026-05-05T12:30:00") }] }],
    price_grandTotal := some ("150.00"),
    price_total := none }

/-- Configuration with outbound window 6..12 (the spec's selection
scenario), two passengers, 200 €/person alert threshold. -/
def cfgC1 : Config :=
  { origin := "ATH", destination := "BCN", adults := 2, currency := "EUR",
    alert_per_person := 200, dep_window_from := some 6, dep_window_to := some 12,
    ret_window_from := none, ret_window_to := none }

/-- The scenario batch: the 180.00 offer first, the 150.00 offer second. -/
def dataC1 : SearchData := { data := [o180, o150] }

/-- Configuration with no time windows configured, two passengers, 200
€/person alert threshold. -/
def cfgW : Config :=
  { origin := "ATH", destination := "BCN", adults := 2, currency := "EUR",
    alert_per_person := 200, dep_window_from := none, dep_window_to := none,
    ret_window_from := none, ret_window_to := none }

/-- An offer priced 380.00 (380/2 = 190 €/person, at most the 200 €/person
threshold). -/
def oW : Offer :=
  { itineraries :=
      [{ segments := [{ departure_at := some ("2026-04-28T09:30:00"),
                        arrival_at := some ("2026-04-28T12:00:00") }] },
       { segments := [{ departure_at := some ("2026-05-05T10:00:00"),
                        arrival_at := some ("2026-05-05T12:30:00") }] }],
    price_grandTotal := some ("380.00"),
    price_total := none }

/-- A one-offer batch with total price 380.00. -/
def dataW : SearchData := { data := [oW] }

/-- An offer whose price parses to 0: the provider string is `"0"`. -/
def oZero : Offer :=
  { itineraries :=
      [{ segments := [{ departure_at := some ("2026-04-28T09:30:00"),
                        arrival_at := some ("2026-04-28T12:00:00") }] }],
    price_grandTotal := some ("0"),
    price_total := none }

/-- A one-offer batch whose only offer is priced 0. -/
def dataZero : SearchData := { data := [oZero] }

/-- An offer with no `grandTotal` and no `total` price field: its price
cannot be parsed. Both time windows pass (none are configured in `cfgW`). -/
def oNoPrice : Offer :=
  { itineraries :=
      [{ segments := [{ departure_at := some ("2026-04-28T09:30:00"),
                        arrival_at := some ("2026-04-28T12:00:00") }] }],
    price_grandTotal := none,
    price_total := none }

/-- A non-empty batch in which every offer passes the time windows but no
price parses. -/
def dataNoPrice : SearchData := { data := [oNoPrice] }

/-- Two distinct history rows of equal price 5; `rTieA` is inserted first. -/
def rTieA : HistoryRow :=
  { timestamp := "2026-04-01T10:00:00", price := 5, currency := "EUR",
    dep_date := none, ret_date := none, google_link := none, skyscanner_link := none }

def rTieB : HistoryRow :=
  { timestamp := "2026-04-02T10:00:00", price := 5, currency := "EUR",
    dep_date := none, ret_date := none, google_link := none, skyscanner_link := none }

/-- A history table holding `rTieA` then `rTieB`, in insertion order. -/
def histTie : List HistoryRow := [rTieA, rTieB]

/-- Updates with identifiers 42, 43, 44 from chat 7. -/
def tgU42 : TgUpdate :=
  { update_id := 42, message := some { text := some cmd_help, chat_id := some 7 },
    edited_message := none }

def tgU43 : TgUpdate :=
  { update_id := 43, message := some { text := some cmd_history, chat_id := some 7 },
    edited_message := none }

def tgU44 : TgUpdate :=
  { update_id := 44, message := some { text := some cmd_start, chat_id := some 7 },
    edited_message := none }

/-! ## Helper lemmas about the Offer Selector -/

theorem bestGo_eq_goPairs (cfg : Config) (l : List Offer) :
    ∀ acc, bestGo cfg acc l = goPairs acc (pricedSurvivors cfg l) := by
  induction l with
  | nil => intro acc; cases acc <;> rfl
  | cons o rest ih =>
    intro acc
    by_cases hm : offer_matches_time_windows cfg o
    · cases hp : offer_price o with
      | none =>
        cases acc <;>
          simp [bestGo, pricedSurvivors, List.filterMap_cons, survivorPair, hm, hp, ih]
      | some p =>
        cases acc with
        | none =>
          simp [bestGo, pricedSurvivors, List.filterMap_cons, survivorPair, hm, hp, goPairs, ih]
        | some b =>
          by_cases hlt : p < b.1 <;>
            simp [bestGo, pricedSurvivors, List.filterMap_cons, survivorPair, hm, hp, goPairs,
              hlt, ih]
    · cases acc <;> simp [bestGo, pricedSurvivors, List.filterMap_cons, survivorPair, hm, ih]

theorem best_offer_eq_goPairs (cfg : Config) (data : Option SearchData) :
    best_offer_from_search cfg data = goPairs none (pricedSurvivors cfg (offersOf data)) :=
  bestGo_eq_goPairs cfg (offersOf data) none

theorem goPairs_spec (ys : List (ℚ × Offer)) :
    ∀ b : ℚ × Offer,
      ∃ c, goPairs (some b) ys = some c ∧
        ((c = b ∧ ∀ y ∈ ys, b.1 ≤ y.1) ∨
          ∃ l₁ l₂, ys = l₁ ++ c :: l₂ ∧ c.1 < b.1 ∧
            (∀ y ∈ l₁, c.1 < y.1) ∧ ∀ y ∈ l₂, c.1 ≤ y.1) := by
  induction ys with
  | nil =>
    intro b
    exact ⟨b, rfl, Or.inl ⟨rfl, by simp⟩⟩
  | cons y ys ih =>
    intro b
    by_cases hy : y.1 < b.1
    · obtain ⟨c, hc, hcase⟩ := ih y
      refine ⟨c, by simpa [goPairs, hy] using hc, ?_⟩
      rcases hcase with ⟨rfl, hall⟩ | ⟨l₁, l₂, hys, hlt, h₁, h₂⟩
      · exact Or.inr ⟨[], ys, rfl, hy, by simp, hall⟩
      · refine Or.inr ⟨y :: l₁, l₂, by rw [hys]; rfl, lt_trans hlt hy, ?_, h₂⟩
        intro z hz
        rcases List.mem_cons.mp hz with rfl | hz
        · exact hlt
        · exact h₁ z hz
    · obtain ⟨c, hc, hcase⟩ := ih b
      refine ⟨c, by simpa [goPairs, hy] using hc, ?_⟩
      rcases hcase with ⟨rfl, hall⟩ | ⟨l₁, l₂, hys, hlt, h₁, h₂⟩
      · refine Or.inl ⟨rfl, ?_⟩
        intro z hz
        rcases List.mem_cons.mp hz with rfl | hz
        · exact le_of_not_lt hy
        · exact hall z hz
      · refine Or.inr ⟨y :: l₁, l₂, by rw [hys]; rfl, hlt, ?_, h₂⟩
        intro z hz
        rcases List.mem_cons.mp hz with rfl | hz
        · exact lt_of_lt_of_le hlt (le_of_not_lt hy)
        · exact h₁ z hz

theorem bestGo_of_all_none (cfg : Config) (l : List Offer)
    (hall : ∀ o ∈ l, offer_price o = none) : ∀ acc, bestGo cfg acc l = acc := by
  induction l with
  | nil => intro acc; cases acc <;> rfl
  | cons o rest ih =>
    intro acc
    have hp : offer_price o = none := hall o (List.mem_cons_self o rest)
    have hrest : ∀ o' ∈ rest, offer_price o' = none :=
      fun o' h => hall o' (List.mem_cons_of_mem _ h)
    by_cases hm : offer_matches_time_windows cfg o <;> cases acc <;>
      simp [bestGo, hm, hp, ih hrest]

theorem best_offer_mem (cfg : Config) (data : Option SearchData) (p : ℚ) (o : Offer)
    (h : best_offer_from_search cfg data = some (p, o)) :
    o ∈ offersOf data ∧ offer_price o = some p := by
  rw [best_offer_eq_goPairs] at h
  have hmem : (p, o) ∈ pricedSurvivors cfg (offersOf data) := by
    cases hps : pricedSurvivors cfg (offersOf data) with
    | nil => rw [hps] at h; exact absurd h (by simp [goPairs])
    | cons x xs =>
      rw [hps] at h
      obtain ⟨c, hc, hcase⟩ := goPairs_spec xs x
      have hstep : goPairs none (x :: xs) = goPairs (some x) xs := rfl
      rw [hstep, hc] at h
      have hcpo : c = (p, o) := Option.some.inj h
      subst hcpo
      rcases hcase with ⟨rfl, _⟩ | ⟨l₁, l₂, hys, _, _, _⟩
      · exact List.mem_cons_self _ _
      · rw [hys]; exact List.mem_cons_of_mem x (by simp)
  obtain ⟨a, ha, hfa⟩ := List.mem_filterMap.mp hmem
  rw [survivorPair] at hfa
  by_cases hm : offer_matches_time_windows cfg a
  · rw [if_pos hm] at hfa
    cases hpa : offer_price a with
    | none => rw [hpa] at hfa; simp at hfa
    | some q =>
      rw [hpa] at hfa
      have hfa' : ((q, a) : ℚ × Offer) = (p, o) := Option.some.inj hfa
      have hq : q = p := congrArg Prod.fst hfa'
      have hao : a = o := congrArg Prod.snd hfa'
      subst hao
      rw [hq] at hpa
      exact ⟨ha, hpa⟩
  · rw [if_neg hm] at hfa; simp at hfa

theorem window_check_false_iff (lo hi : Option Int) (hr : Option Nat) :
    window_check lo hi hr = false ↔
      ∃ l h x, lo = some l ∧ hi = some h ∧ hr = some x ∧
        ¬(l ≤ (x : Int) ∧ (x : Int) ≤ h) := by
  cases lo <;> cases hi <;> cases hr <;> simp [window_check]

/-! ## Claim theorems -/

/-- C1: whenever some offer of the batch passes both time-window filters and
has a parseable price, `best_offer_from_search` returns such an offer with
its price, and in the input-ordered list of those qualifying price/offer
pairs the returned pair has a strictly smaller price than every earlier pair
and a price at most that of every later pair: it is the strictly
minimum-price qualifying offer, with ties resolved to the first-encountered
one. -/
theorem best_offer_is_first_min (cfg : Config) (data : Option SearchData)
    (h : pricedSurvivors cfg (offersOf data) ≠ []) :
    ∃ c l₁ l₂, best_offer_from_search cfg data = some c ∧
      pricedSurvivors cfg (offersOf data) = l₁ ++ c :: l₂ ∧
      (∀ y ∈ l₁, c.1 < y.1) ∧ ∀ y ∈ l₂, c.1 ≤ y.1 := by
  obtain ⟨x, xs, hxs⟩ := List.exists_cons_of_ne_nil h
  rw [best_offer_eq_goPairs, hxs]
  have hstep : goPairs none (x :: xs) = goPairs (some x) xs := rfl
  obtain ⟨c, hc, hcase⟩ := goPairs_spec xs x
  rw [hstep, hc]
  rcases hcase with ⟨rfl, hall⟩ | ⟨l₁, l₂, hys, hlt, h₁, h₂⟩
  · exact ⟨c, [], xs, rfl, rfl, by simp, hall⟩
  · refine ⟨c, x :: l₁, l₂, rfl, by rw [hys, List.cons_append], ?_, h₂⟩
    intro z hz
    rcases List.mem_cons.mp hz with rfl | hz
    · exact hlt
    · exact h₁ z hz

/-- Witness for C1 at the spec's scenario: batch `[180.00 @ hour 9,
150.00 @ hour 23]` with outbound window 6..12 has a qualifying offer, and
the theorem applies (the 150.00 offer is filtered out, so the selector
returns the 180.00 offer). -/
theorem best_offer_is_first_min_witness :
    pricedSurvivors cfgC1 (offersOf (some dataC1)) ≠ [] ∧
      ∃ c l₁ l₂, best_offer_from_search cfgC1 (some dataC1) = some c ∧
        pricedSurvivors cfgC1 (offersOf (some dataC1)) = l₁ ++ c :: l₂ ∧
        (∀ y ∈ l₁, c.1 < y.1) ∧ ∀ y ∈ l₂, c.1 ≤ y.1 :=
  ⟨by decide, best_offer_is_first_min cfgC1 (some dataC1) (by decide)⟩

/-- C3: the time-window filter rejects an offer exactly when, for the
outbound or the inbound window, both bounds are configured, the departure
hour of that leg parses, and the hour lies outside the inclusive range; in
particular an unconfigured bound or a missing/unparseable timestamp never
causes a rejection by that check. -/
theorem offer_matches_time_windows_false_iff (cfg : Config) (offer : Offer) :
    offer_matches_time_windows cfg offer = false ↔
      (∃ lo hi h, cfg.dep_window_from = some lo ∧ cfg.dep_window_to = some hi ∧
          _parse_hour (extract_times_from_offer offer).1 = some h ∧
          ¬(lo ≤ (h : Int) ∧ (h : Int) ≤ hi)) ∨
        ∃ lo hi h, cfg.ret_window_from = some lo ∧ cfg.ret_window_to = some hi ∧
          _parse_hour (extract_times_from_offer offer).2.2.1 = some h ∧
          ¬(lo ≤ (h : Int) ∧ (h : Int) ≤ hi) := by
  have hb : ∀ a b : Bool, (a && b) = false ↔ a = false ∨ b = false := by decide
  simp only [offer_matches_time_windows, hb, window_check_false_iff]

/-- C9: an offer whose price is missing or unparseable is skipped by the
selection loop even when it passes both time windows, and a batch in which
no price parses yields no selection at all. -/
theorem best_offer_skips_unparseable (cfg : Config) :
    (∀ acc o rest, offer_price o = none →
        bestGo cfg acc (o :: rest) = bestGo cfg acc rest) ∧
      ∀ data, (∀ o ∈ offersOf data, offer_price o = none) →
        best_offer_from_search cfg data = none := by
  constructor
  · intro acc o rest hp
    by_cases hm : offer_matches_time_windows cfg o <;> cases acc <;> simp [bestGo, hm, hp]
  · intro data hall
    exact bestGo_of_all_none cfg (offersOf data) hall none

/-- Witness for C9: a non-empty batch whose only offer passes both time
windows (none are configured) but has no parseable price; the selector
returns `None` on it. -/
theorem best_offer_skips_unparseable_witness :
    offersOf (some dataNoPrice) ≠ [] ∧
      (∀ o ∈ offersOf (some dataNoPrice), offer_matches_time_windows cfgW o = true) ∧
      best_offer_from_search cfgW (some dataNoPrice) = none :=
  ⟨by decide, by decide,
    (best_offer_skips_unparseable cfgW).2 (some dataNoPrice) (by decide)⟩

/-- C4: in a poll cycle that found a qualifying offer of total price `p`,
with at least one passenger configured, the alert message is sent if and
only if the per-person price `p / adults` is at most the configured
per-person threshold (so the boundary case of exact equality sends it). -/
theorem alert_iff_per_person_le (cfg : Config) (tok : String) (data : Option SearchData)
    (p : ℚ) (o : Offer) (hA : 1 ≤ cfg.adults)
    (hbest : best_offer_from_search cfg data = some (p, o)) :
    Event.notify_alert (p / (cfg.adults : ℚ)) ∈ poll_and_notify cfg (some tok) data ↔
      p / (cfg.adults : ℚ) ≤ cfg.alert_per_person := by
  have hA0 : cfg.adults ≠ 0 := by omega
  by_cases hle : p / (cfg.adults : ℚ) ≤ cfg.alert_per_person
  · simp [poll_and_notify, hbest, hA0, hle]
  · simp [poll_and_notify, hbest, hA0, hle]

/-- Witness for C4 at the spec's alert scenario: threshold 200 €/person,
2 passengers, total price 380.00 → per-person 190 → the alert is sent. -/
theorem alert_iff_per_person_le_witness :
    (1 ≤ cfgW.adults ∧ best_offer_from_search cfgW (some dataW) = some (380, oW)) ∧
      Event.notify_alert ((380 : ℚ) / (cfgW.adults : ℚ)) ∈
        poll_and_notify cfgW (some tokStr) (some dataW) :=
  ⟨⟨by decide, by decide⟩,
    (alert_iff_per_person_le cfgW tokStr (some dataW) 380 oW (by decide) (by decide)).mpr
      (by norm_num [cfgW])⟩

/-- C5: in a poll cycle that found a qualifying offer, the first side effect
of the cycle is the history insert of that offer's price, and every later
side effect of the cycle is a notification send: persistence strictly
precedes every notification. -/
theorem persist_before_notify (cfg : Config) (tok : String) (data : Option SearchData)
    (p : ℚ) (o : Offer) (hbest : best_offer_from_search cfg data = some (p, o)) :
    ∃ dd rd gl sl rest,
      poll_and_notify cfg (some tok) data =
        Event.persist p cfg.currency dd rd gl sl :: rest ∧
        ∀ e ∈ rest, e.is_notification = true := by
  by_cases hle :
      (if cfg.adults = 0 then p else p / (cfg.adults : ℚ)) ≤ cfg.alert_per_person
  · refine ⟨(extract_dates_from_offer o).1, (extract_dates_from_offer o).2,
      google_flights_link cfg.origin cfg.destination (extract_dates_from_offer o).1
        (extract_dates_from_offer o).2 cfg.currency cfg.adults localeEl,
      skyscanner_link cfg.origin cfg.destination (extract_dates_from_offer o).1
        (extract_dates_from_offer o).2 cfg.currency cfg.adults,
      [Event.notify_offer p,
        Event.notify_alert (if cfg.adults = 0 then p else p / (cfg.adults : ℚ))],
      ?_, ?_⟩
    · simp [poll_and_notify, hbest, hle]
    · simp [Event.is_notification]
  · refine ⟨(extract_dates_from_offer o).1, (extract_dates_from_offer o).2,
      google_flights_link cfg.origin cfg.destination (extract_dates_from_offer o).1
        (extract_dates_from_offer o).2 cfg.currency cfg.adults localeEl,
      skyscanner_link cfg.origin cfg.destination (extract_dates_from_offer o).1
        (extract_dates_from_offer o).2 cfg.currency cfg.adults,
      [Event.notify_offer p], ?_, ?_⟩
    · simp [poll_and_notify, hbest, hle]
    · simp [Event.is_notification]

/-- Witness for C5: on the concrete 380.00 batch the cycle's trace starts
with the history insert and everything after it is a notification. -/
theorem persist_before_notify_witness :
    best_offer_from_search cfgW (some dataW) = some (380, oW) ∧
      ∃ dd rd gl sl rest,
        poll_and_notify cfgW (some tokStr) (some dataW) =
          Event.persist 380 cfgW.currency dd rd gl sl :: rest ∧
          ∀ e ∈ rest, e.is_notification = true :=
  ⟨by decide, persist_before_notify cfgW tokStr (some dataW) 380 oW (by decide)⟩

/-- The history insert of a successful poll cycle records exactly the
selected offer's price (helper shared by the observations about C8). -/
theorem persistedPrices_poll (cfg : Config) (tok : String) (data : Option SearchData)
    (p : ℚ) (o : Offer) (hbest : best_offer_from_search cfg data = some (p, o)) :
    persistedPrices (poll_and_notify cfg (some tok) data) = [p] := by
  by_cases hle :
      (if cfg.adults = 0 then p else p / (cfg.adults : ℚ)) ≤ cfg.alert_per_person <;>
    simp [poll_and_notify, hbest, persistedPrices, hle]

/-- Counterexample to C8 as stated: a poll cycle over a provider batch whose
only offer is priced `"0"` writes the non-positive price 0 to the history
store; the code never enforces positivity of the persisted price. -/
theorem persisted_price_zero_counterexample :
    persistedPrices (poll_and_notify cfgW (some tokStr) (some dataZero)) = [0] ∧
      ¬ ∀ q ∈ persistedPrices (poll_and_notify cfgW (some tokStr) (some dataZero)), 0 < q := by
  have h0 : persistedPrices (poll_and_notify cfgW (some tokStr) (some dataZero)) = [0] :=
    persistedPrices_poll cfgW tokStr (some dataZero) 0 oZero (by decide)
  refine ⟨h0, ?_⟩
  rw [h0]
  intro hcon
  exact absurd (hcon 0 (List.mem_singleton_self 0)) (lt_irrefl 0)

/-- C8 (amended): the price a poll cycle persists is the parsed price of one
of the provider's offers, so whenever every offer price that parses in the
batch is strictly positive, the persisted price is strictly positive. -/
theorem persisted_price_positive (cfg : Config) (tok : String) (data : Option SearchData)
    (hpos : ∀ o ∈ offersOf data, (offer_price o).all (fun q => decide (0 < q)) = true) :
    ∀ q ∈ persistedPrices (poll_and_notify cfg (some tok) data), 0 < q := by
  intro q hq
  cases hbest : best_offer_from_search cfg data with
  | none => simp [poll_and_notify, hbest, persistedPrices] at hq
  | some b =>
    obtain ⟨p, o⟩ := b
    have hb := best_offer_mem cfg data p o hbest
    have hall := hpos o hb.1
    rw [hb.2] at hall
    have hp : 0 < p := by simpa using hall
    rw [persistedPrices_poll cfg tok data p o hbest] at hq
    have hqp : q = p := by simpa using hq
    rw [hqp]
    exact hp

/-- Witness for C8 (amended): the 380.00 batch has only positive parseable
prices, and every price persisted by the cycle is positive. -/
theorem persisted_price_positive_witness :
    (∀ o ∈ offersOf (some dataW), (offer_price o).all (fun q => decide (0 < q)) = true) ∧
      ∀ q ∈ persistedPrices (poll_and_notify cfgW (some tokStr) (some dataW)), 0 < q :=
  ⟨by decide, persisted_price_positive cfgW tokStr (some dataW) (by decide)⟩

/-! ## Helper lemmas about the Command Listener loop -/

theorem drain_snd (l : List TgUpdate) :
    ∀ off, (drain off l).2 = l.map (fun u => u.update_id) := by
  induction l with
  | nil => intro off; rfl
  | cons u rest ih => intro off; simp [drain, ih]

theorem drain_take_fst (batch : List TgUpdate) :
    ∀ (i : Nat) (off : Option Int) (h : i < batch.length),
      (drain off (batch.take (i + 1))).1 = some ((batch.get ⟨i, h⟩).update_id + 1) := by
  induction batch with
  | nil => intro i off h; exact absurd h (by simp)
  | cons u rest ih =>
    intro i off h
    cases i with
    | zero => rfl
    | succ j =>
      have hj : j < rest.length := Nat.lt_of_succ_lt_succ h
      calc (drain off ((u :: rest).take (j + 1 + 1))).1
          = (drain (some (u.update_id + 1)) (rest.take (j + 1))).1 := rfl
        _ = some ((rest.get ⟨j, hj⟩).update_id + 1) := ih j _ hj

theorem filter_ge_eq_drop (l : List TgUpdate) :
    ∀ (k : Nat) (off : Int),
      (∀ (i : Nat) (hi : i < l.length), i < k → (l.get ⟨i, hi⟩).update_id < off) →
      (∀ (i : Nat) (hi : i < l.length), k ≤ i → off ≤ (l.get ⟨i, hi⟩).update_id) →
      l.filter (fun u => decide (off ≤ u.update_id)) = l.drop k := by
  induction l with
  | nil => intro k off _ _; simp
  | cons u t ih =>
    intro k off hlt hge
    cases k with
    | zero =>
      have hall : ∀ v ∈ u :: t, decide (off ≤ v.update_id) = true := by
        intro v hv
        obtain ⟨⟨i, hi⟩, rfl⟩ := List.mem_iff_get.mp hv
        exact decide_eq_true (hge i hi (Nat.zero_le i))
      rw [List.filter_eq_self.mpr hall]
      rfl
    | succ j =>
      have hu : u.update_id < off := hlt 0 (Nat.succ_pos _) (Nat.succ_pos _)
      have hu' : decide (off ≤ u.update_id) = false := by
        simp [not_le.mpr hu]
      have h1 : ∀ (i : Nat) (hi : i < t.length), i < j → (t.get ⟨i, hi⟩).update_id < off :=
        fun i hi hij => hlt (i + 1) (Nat.succ_lt_succ hi) (Nat.succ_lt_succ hij)
      have h2 : ∀ (i : Nat) (hi : i < t.length), j ≤ i → off ≤ (t.get ⟨i, hi⟩).update_id :=
        fun i hi hij => hge (i + 1) (Nat.succ_lt_succ hi) (Nat.succ_le_succ hij)
      rw [List.filter_cons, hu']
      simpa using ih j off h1 h2

/-! ## Listener claim theorems -/

/-- Counterexample to C2 as stated: with the persisted cursor at 42 and the
single pending update 42, a crash between `handle_update` and `save_offset`
makes the restarted loop re-deliver and re-handle update 42: identifier 42
is processed twice. -/
theorem update_processed_twice_counterexample :
    processedAcrossCrash (some 42) [tgU42] 0 = [42, 42] ∧
      ¬ (processedAcrossCrash (some 42) [tgU42] 0).Nodup := by
  constructor
  · decide
  · decide

/-- C2 (amended): across a crash between handling the update at position `k`
and persisting its advanced cursor, the first run handles updates
`0..k` and the restarted run handles exactly the unconfirmed updates
`k..end`: the update in flight at the crash is handled twice, updates whose
cursor was persisted are never re-delivered, and none is skipped
(hypotheses: the crash position exists, identifiers are strictly increasing
and non-negative, and the initial cursor re-delivers the whole batch). -/
theorem crash_reprocesses_only_unconfirmed (offset0 : Option Int) (pending : List TgUpdate)
    (k : Nat) (hk : k < pending.length)
    (hmono : pending.Pairwise (fun a b => a.update_id < b.update_id))
    (hpos : ∀ u ∈ pending, 0 ≤ u.update_id)
    (h0 : tgPoll pending offset0 = pending) :
    processedAcrossCrash offset0 pending k =
      (pending.take (k + 1) ++ pending.drop k).map (fun u => u.update_id) := by
  have hget := List.pairwise_iff_get.mp hmono
  unfold processedAcrossCrash
  cases k with
  | zero =>
    simp only [List.take_zero, List.drop_zero, drain]
    rw [h0, drain_snd pending offset0, List.map_append]
    simp
  | succ j =>
    have hj : j < pending.length := Nat.lt_of_succ_lt hk
    rw [drain_take_fst pending j offset0 hj]
    have hid0 : 0 ≤ (pending.get ⟨j, hj⟩).update_id := hpos _ (List.get_mem pending j hj)
    have hne : (pending.get ⟨j, hj⟩).update_id + 1 ≠ 0 := by omega
    have hpoll : tgPoll pending (some ((pending.get ⟨j, hj⟩).update_id + 1)) =
        pending.drop (j + 1) := by
      rw [tgPoll, if_neg hne]
      apply filter_ge_eq_drop
      · intro i hi hik
        have hle : (pending.get ⟨i, hi⟩).update_id ≤ (pending.get ⟨j, hj⟩).update_id := by
          rcases Nat.lt_or_ge i j with hij | hij
          · exact le_of_lt (hget ⟨i, hi⟩ ⟨j, hj⟩ hij)
          · have hij' : i = j := Nat.le_antisymm (Nat.lt_succ_iff.mp hik) hij
            subst hij'
            exact le_refl _
        omega
      · intro i hi hik
        have hgt : (pending.get ⟨j, hj⟩).update_id < (pending.get ⟨i, hi⟩).update_id :=
          hget ⟨j, hj⟩ ⟨i, hi⟩ (Nat.lt_of_succ_le hik)
        omega
    rw [hpoll, drain_snd (pending.take (j + 1)) offset0,
      drain_snd (pending.drop (j + 1)) (some ((pending.get ⟨j, hj⟩).update_id + 1)),
      List.map_append, List.take_add pending (j + 1) 1, List.map_append]

/-- Witness for C2 (amended): cursor 42, pending updates 42/43/44, crash
while handling update 43 (position 1): the trace re-handles 43 and 44 only,
so the processed identifiers are those of `take 2 ++ drop 1`. -/
theorem crash_reprocesses_only_unconfirmed_witness :
    (1 < ([tgU42, tgU43, tgU44] : List TgUpdate).length ∧
        ([tgU42, tgU43, tgU44] : List TgUpdate).Pairwise
          (fun a b => a.update_id < b.update_id) ∧
        (∀ u ∈ ([tgU42, tgU43, tgU44] : List TgUpdate), 0 ≤ u.update_id) ∧
        tgPoll [tgU42, tgU43, tgU44] (some 42) = [tgU42, tgU43, tgU44]) ∧
      processedAcrossCrash (some 42) [tgU42, tgU43, tgU44] 1 =
        (([tgU42, tgU43, tgU44] : List TgUpdate).take 2 ++
          ([tgU42, tgU43, tgU44] : List TgUpdate).drop 1).map (fun u => u.update_id) :=
  ⟨⟨by decide, by decide, by decide, by decide⟩,
    crash_reprocesses_only_unconfirmed (some 42) [tgU42, tgU43, tgU44] 1 (by decide)
      (by decide) (by decide) (by decide)⟩

/-- C6: in a crash-free batch, immediately after the update at position `i`
is handled the persisted cursor is that update's identifier plus one, and
the whole batch is handled in order. -/
theorem cursor_after_each_update (offset0 : Option Int) (batch : List TgUpdate)
    (i : Nat) (h : i < batch.length) :
    (drain offset0 (batch.take (i + 1))).1 = some ((batch.get ⟨i, h⟩).update_id + 1) ∧
      (drain offset0 batch).2 = batch.map (fun u => u.update_id) :=
  ⟨drain_take_fst batch i offset0 h, drain_snd batch offset0⟩

/-- Witness for C6 at the spec's scenario: cursor 42, updates 42/43/44 →
all three are handled in order and the final persisted cursor is 45. -/
theorem cursor_after_each_update_witness :
    2 < ([tgU42, tgU43, tgU44] : List TgUpdate).length ∧
      (drain (some 42) [tgU42, tgU43, tgU44]).1 = some 45 ∧
      (drain (some 42) [tgU42, tgU43, tgU44]).2 = [42, 43, 44] := by
  have h := cursor_after_each_update (some 42) [tgU42, tgU43, tgU44] 2 (by decide)
  exact ⟨by decide, h.1.trans (by decide), h.2.trans (by decide)⟩

/-! ## History store claim theorems -/

/-- Counterexample to C7 as stated: the store holds two distinct rows of
equal price with `rTieA` inserted before `rTieB`, and the swapped list
`[rTieB, rTieA]` is an admissible result of the top-2 query (the `ORDER BY`
has no secondary key, so SQLite guarantees no order between equal prices):
its equal-price rows are not in insertion order — they are not an initial
segment of the stored rows of that price. -/
theorem top_n_tie_order_counterexample :
    top_n_history histTie 2 [rTieB, rTieA] ∧
      histTie = [rTieA, rTieB] ∧ rTieB.price = rTieA.price ∧ rTieA ≠ rTieB ∧
      ¬ ∃ t, histTie.filter (fun r => decide (r.price = 5)) =
          ([rTieB, rTieA] : List HistoryRow).filter (fun r => decide (r.price = 5)) ++ t := by
  refine ⟨⟨[rTieB, rTieA], ⟨List.Perm.swap rTieB rTieA [], by decide⟩, rfl⟩, rfl,
    by decide, by decide, ?_⟩
  rintro ⟨t, ht⟩
  rw [show histTie.filter (fun r => decide (r.price = 5)) = [rTieA, rTieB] by decide,
    show ([rTieB, rTieA] : List HistoryRow).filter (fun r => decide (r.price = 5)) =
      [rTieB, rTieA] by decide] at ht
  simp only [List.cons_append, List.nil_append] at ht
  injection ht with h1 h2
  exact absurd h1 (by decide)

/-- C7 (amended): every admissible result of the top-N query has at most `n`
rows, sorted by non-decreasing price, and contains only rows of the store;
the relative order of equal-price rows is unspecified by the query. -/
theorem top_n_history_spec (hist : List HistoryRow) (n : Nat) (res : List HistoryRow)
    (h : top_n_history hist n res) :
    res.length ≤ n ∧ res.Pairwise (fun a b => a.price ≤ b.price) ∧
      ∀ r ∈ res, r ∈ hist := by
  obtain ⟨out, ⟨hperm, hsort⟩, rfl⟩ := h
  refine ⟨List.length_take_le n out, hsort.sublist (List.take_sublist n out), ?_⟩
  intro r hr
  exact hperm.mem_iff.mpr ((List.take_sublist n out).subset hr)

/-- Witness for C7 (amended): the swapped list is an admissible result of
the top-2 query on the two equal-priced stored rows, and the theorem's
conclusions hold for it. -/
theorem top_n_history_spec_witness :
    top_n_history histTie 2 [rTieB, rTieA] ∧
      ([rTieB, rTieA] : List HistoryRow).length ≤ 2 ∧
      ([rTieB, rTieA] : List HistoryRow).Pairwise (fun a b => a.price ≤ b.price) ∧
      ∀ r ∈ ([rTieB, rTieA] : List HistoryRow), r ∈ histTie := by
  have hadm : top_n_history histTie 2 [rTieB, rTieA] :=
    ⟨[rTieB, rTieA], ⟨List.Perm.swap rTieB rTieA [], by decide⟩, rfl⟩
  exact ⟨hadm, top_n_history_spec histTie 2 [rTieB, rTieA] hadm⟩

/-- C10: with an empty configured recipient chat id, `handle_update` skips
the recipient check and never drops an update: every update is dispatched to
one of the command branches whatever its originating chat. -/
theorem handle_update_empty_chat_never_drops (u : TgUpdate) :
    handle_update emptyStr u ≠ Reply.dropped := by
  unfold handle_update
  rw [if_neg (fun hcon => hcon.1 rfl)]
  split
  · decide
  · split
    · decide
    · split
      · decide
      · decide

end FlightDealsBot
